import Mathlib

/-!
Verification of the koatsume network module (src/network.py).

The Python source is shallowly embedded below. Bytes are `Nat` values in
[0,256); byte strings are `List Nat`. `struct.pack` raises on out-of-range
fields, so the packing functions return `Option (List Nat)` with the exact
range checks of the corresponding format characters (`H` = uint16 big-endian,
`b` = int8, `B` = uint8). Wall-clock times (Python floats from `time.time()`)
are modelled as rationals.
-/

/-- Encodes one signed byte the way `struct.pack` format `b` lays it out
(two's complement, assuming the value is already in [-128,127]). -/
def packI8 (z : Int) : Nat := (z % 256).toNat

/-- Decodes one byte as a signed 8-bit integer, as `struct.unpack` format
`b` does. -/
def unpackI8 (b : Nat) : Int := if b < 128 then (b : Int) else (b : Int) - 256

/-- Decoded UDP packet: the dict returned by `UDPPacket.unpack`
(src/network.py lines 48-70), keyed by its `type` field. -/
inductive Packet where
  | heartbeat (sequence : Nat)
  | mouse_absolute (sequence x y : Nat) (wheel_x wheel_y : Int) (buttons : Nat)
deriving DecidableEq, Repr

/-- Embeds `UDPPacket.pack_heartbeat` (src/network.py lines 27-30):
`struct.pack("!HB", sequence, 0)`.  `none` models the `struct.error`
raised for an out-of-range sequence. -/
def pack_heartbeat (sequence : Nat) : Option (List Nat) :=
  if sequence < 65536 then
    some [sequence / 256, sequence % 256, 0]
  else none

/-- Embeds `UDPPacket.pack_mouse_absolute` (src/network.py lines 32-38):
a `"!HB"` header with type 1 followed by the `"!HHbbB"` payload.  `none`
models the `struct.error` raised for out-of-range fields. -/
def pack_mouse_absolute (sequence x y : Nat) (wheel_x wheel_y : Int)
    (buttons : Nat) : Option (List Nat) :=
  if sequence < 65536 ∧ x < 65536 ∧ y < 65536 ∧
      -128 ≤ wheel_x ∧ wheel_x ≤ 127 ∧ -128 ≤ wheel_y ∧ wheel_y ≤ 127 ∧
      buttons < 256 then
    some ([sequence / 256, sequence % 256, 1] ++
      [x / 256, x % 256, y / 256, y % 256, packI8 wheel_x, packI8 wheel_y, buttons])
  else none

/-- Embeds `UDPPacket.unpack` (src/network.py lines 40-72).  The first two
match arms mirror the `len(data) < HEADER_SIZE` check (HEADER_SIZE = 3);
the header is `"!HB"` big-endian; type 0 decodes as a heartbeat ignoring
any trailing bytes; type 1 additionally needs MOUSE_SIZE = 7 payload bytes
(`len(data) < 3 + 7` returns `None`) and reads exactly `data[3:10]`;
any other type byte returns `None`. -/
def unpack (data : List Nat) : Option Packet :=
  match data with
  | b0 :: b1 :: t :: rest =>
    let sequence := b0 * 256 + b1
    if t = 0 then
      some (Packet.heartbeat sequence)
    else if t = 1 then
      match rest with
      | x0 :: x1 :: y0 :: y1 :: wx :: wy :: btn :: _ =>
        some (Packet.mouse_absolute sequence (x0 * 256 + x1) (y0 * 256 + y1)
          (unpackI8 wx) (unpackI8 wy) btn)
      | _ => none
    else none
  | _ => none

lemma unpackI8_packI8 (z : Int) (h1 : -128 ≤ z) (h2 : z ≤ 127) :
    unpackI8 (packI8 z) = z := by
  unfold packI8 unpackI8
  split <;> omega

lemma unpackU16_packU16 (n : Nat) : n / 256 * 256 + n % 256 = n := by omega

/-- C1: for every sequence in [0,65535] the heartbeat frame round-trips
through `unpack`, and for all in-range field values the mouse_absolute
frame round-trips through `unpack` reproducing every field. -/
theorem roundtrip_both_kinds (seq x y : Nat) (wx wy : Int) (btn : Nat)
    (hseq : seq ≤ 65535) (hx : x ≤ 65535) (hy : y ≤ 65535)
    (hwx1 : -128 ≤ wx) (hwx2 : wx ≤ 127) (hwy1 : -128 ≤ wy) (hwy2 : wy ≤ 127)
    (hb : btn ≤ 255) :
    (pack_heartbeat seq).bind unpack = some (Packet.heartbeat seq) ∧
    (pack_mouse_absolute seq x y wx wy btn).bind unpack =
      some (Packet.mouse_absolute seq x y wx wy btn) := by
  constructor
  · rw [pack_heartbeat, if_pos (by omega)]
    simp [unpack, unpackU16_packU16]
  · rw [pack_mouse_absolute, if_pos (by refine ⟨by omega, by omega, by omega, hwx1, hwx2, hwy1, hwy2, by omega⟩)]
    simp [unpack, unpackU16_packU16, unpackI8_packI8 wx hwx1 hwx2,
      unpackI8_packI8 wy hwy1 hwy2]

/-- Witness for C1 at concrete field values. -/
theorem roundtrip_both_kinds_witness :
    (pack_heartbeat 513).bind unpack = some (Packet.heartbeat 513) ∧
    (pack_mouse_absolute 513 65535 2 (-3) 127 255).bind unpack =
      some (Packet.mouse_absolute 513 65535 2 (-3) 127 255) :=
  roundtrip_both_kinds 513 65535 2 (-3) 127 255
    (by decide) (by decide) (by decide) (by decide) (by decide)
    (by decide) (by decide) (by decide)

/-- C2 counterexample: the claim says a type-1 input is rejected exactly
when it is shorter than 8 bytes, so this 8-byte mouse frame should decode;
the code requires header (3) + `"!HHbbB"` payload (7) = 10 bytes and
returns `None` on it. -/
theorem unpack_len8_counterexample :
    unpack [0, 0, 1, 0, 0, 0, 0, 0] = none ∧
    ([0, 0, 1, 0, 0, 0, 0, 0] : List Nat).length = 8 ∧
    ([0, 0, 1, 0, 0, 0, 0, 0] : List Nat).getD 2 0 = 1 := by
  decide

/-- C2 as amended: `unpack` is a total function and returns `none` exactly
when the input is shorter than the 3-byte header, or the type byte is
neither 0 nor 1, or the type byte is 1 and the input is shorter than
10 bytes (3-byte header + 7-byte mouse payload). -/
theorem unpack_none_iff (data : List Nat) :
    unpack data = none ↔
      data.length < 3 ∨
      (data.getD 2 0 ≠ 0 ∧ data.getD 2 0 ≠ 1) ∨
      (data.getD 2 0 = 1 ∧ data.length < 10) := by
  rcases data with _ | ⟨b0, _ | ⟨b1, _ | ⟨t, rest⟩⟩⟩
  · simp [unpack]
  · simp [unpack]
  · simp [unpack]
  · have ht : (b0 :: b1 :: t :: rest).getD 2 0 = t := rfl
    rw [ht]
    rcases eq_or_ne t 0 with h0 | h0
    · subst h0; simp [unpack]
    · rcases eq_or_ne t 1 with h1 | h1
      · subst h1
        rcases rest with _ | ⟨x0, _ | ⟨x1, _ | ⟨y0, _ | ⟨y1, _ | ⟨wx, _ | ⟨wy, _ | ⟨btn, tail⟩⟩⟩⟩⟩⟩⟩ <;>
          simp [unpack]
      · simp [unpack, h0, h1]

/-- C10 counterexample: the claim says every input of length ≥ 8 whose type
byte is 1 decodes as a mouse_absolute frame; this 8-byte input has type
byte 1 yet `unpack` returns `none` (the code needs 10 bytes). -/
theorem unpack_trailing_counterexample :
    unpack [1, 2, 1, 3, 4, 5, 6, 7] = none ∧
    ([1, 2, 1, 3, 4, 5, 6, 7] : List Nat).length = 8 ∧
    ([1, 2, 1, 3, 4, 5, 6, 7] : List Nat).getD 2 0 = 1 := by
  decide

/-- C10 as amended: `unpack` ignores trailing bytes rather than rejecting
them — any input of length ≥ 3 with type byte 0 decodes as a heartbeat
whatever follows the header, and any input of length ≥ 10 with type byte 1
decodes as a mouse_absolute frame using only its first 10 bytes; length is
never checked for an exact match. -/
theorem unpack_ignores_trailing (b0 b1 x0 x1 y0 y1 wx wy btn : Nat)
    (extra : List Nat) :
    unpack (b0 :: b1 :: 0 :: extra) = some (Packet.heartbeat (b0 * 256 + b1)) ∧
    unpack (b0 :: b1 :: 1 :: x0 :: x1 :: y0 :: y1 :: wx :: wy :: btn :: extra) =
      some (Packet.mouse_absolute (b0 * 256 + b1) (x0 * 256 + x1) (y0 * 256 + y1)
        (unpackI8 wx) (unpackI8 wy) btn) := by
  constructor <;> simp [unpack]

/-- Embeds the state of a `PeerConnection` (src/network.py lines 115-156):
the constructor arguments and the mutable fields its tasks read and write.
Socket and thread handles carry no data and are omitted; timestamps from
`time.time()` are rationals. -/
structure PeerConnection where
  peer_name : String
  peer_address : String
  tcp_port : Int
  udp_port : Int
  local_tcp_port : Nat
  local_udp_port : Nat
  username : String
  running : Bool := false
  connected : Bool := false
  tx_sequence : Nat := 0
  rx_packets : Nat := 0
  rx_bytes : Nat := 0
  last_tx_time : ℚ := 0
  last_rx_time : ℚ := 0
  mouse_x : Nat := 0
  mouse_y : Nat := 0
  mouse_wheel_x : Int := 0
  mouse_wheel_y : Int := 0
  mouse_buttons : Nat := 0
deriving DecidableEq, Repr

/-- Embeds `PeerConnection.update_mouse_state` (src/network.py lines
201-207): stores the five arguments verbatim into the snapshot fields. -/
def PeerConnection.update_mouse_state (c : PeerConnection) (x y : Nat)
    (wheel_x wheel_y : Int) (buttons : Nat) : PeerConnection :=
  { c with mouse_x := x, mouse_y := y, mouse_wheel_x := wheel_x,
           mouse_wheel_y := wheel_y, mouse_buttons := buttons }

/-- Embeds one iteration of `PeerConnection._udp_transmit_loop`
(src/network.py lines 268-286): packs the current snapshot as a
mouse_absolute frame tagged with `tx_sequence` (the returned datagram,
sent to the peer's UDP endpoint), then increments the sequence mod 65536
and records the transmit time.  No other field is written. -/
def udpTransmitStep (c : PeerConnection) (now : ℚ) :
    Option (List Nat) × PeerConnection :=
  (pack_mouse_absolute c.tx_sequence c.mouse_x c.mouse_y
      c.mouse_wheel_x c.mouse_wheel_y c.mouse_buttons,
   { c with tx_sequence := (c.tx_sequence + 1) % 65536, last_tx_time := now })

/-- Concrete connection used to exercise the per-connection operations. -/
def sampleConn : PeerConnection :=
  { peer_name := "B", peer_address := "10.0.0.5", tcp_port := 51000,
    udp_port := 52000, local_tcp_port := 50000, local_udp_port := 51000,
    username := "alice", mouse_wheel_x := 5, mouse_wheel_y := -2 }

/-- C4 counterexample: a transmit iteration packs the snapshot's wheel
deltas (5, -2) into the outbound frame but does not reset them to zero;
they still read (5, -2) afterwards. -/
theorem transmit_no_wheel_reset_counterexample :
    sampleConn.mouse_wheel_x = 5 ∧ sampleConn.mouse_wheel_y = -2 ∧
    ¬ ((udpTransmitStep sampleConn 1).2.mouse_wheel_x = 0 ∧
       (udpTransmitStep sampleConn 1).2.mouse_wheel_y = 0) := by
  refine ⟨rfl, rfl, ?_⟩
  intro h
  exact absurd h.1 (by decide)

/-- C4 as amended: a transmit iteration packs the snapshot (wheel deltas
included) into the outbound mouse_absolute frame, but leaves every
snapshot field unchanged — the wheel deltas are NOT reset to zero; only
`tx_sequence` (incremented mod 65536) and `last_tx_time` change.  (The
reset of accumulated wheel deltas happens in the capture layer,
`MouseCapture._notify_update` in src/mouse_capture.py, not here.) -/
theorem transmit_preserves_snapshot (c : PeerConnection) (now : ℚ) :
    (udpTransmitStep c now).1 =
      pack_mouse_absolute c.tx_sequence c.mouse_x c.mouse_y
        c.mouse_wheel_x c.mouse_wheel_y c.mouse_buttons ∧
    (udpTransmitStep c now).2.mouse_wheel_x = c.mouse_wheel_x ∧
    (udpTransmitStep c now).2.mouse_wheel_y = c.mouse_wheel_y ∧
    (udpTransmitStep c now).2.mouse_x = c.mouse_x ∧
    (udpTransmitStep c now).2.mouse_y = c.mouse_y ∧
    (udpTransmitStep c now).2.mouse_buttons = c.mouse_buttons ∧
    (udpTransmitStep c now).2.tx_sequence = (c.tx_sequence + 1) % 65536 := by
  refine ⟨rfl, rfl, rfl, rfl, rfl, rfl, rfl⟩

/-- Observable actions on the success path of
`PeerConnection._tcp_connect_and_sync` (src/network.py lines 211-246). -/
inductive TcpEvent where
  | tcp_connect
  | send_handshake
  | set_connected
  | recv_handshake_response
  | send_sync
deriving DecidableEq, Repr

/-- Embeds the statement order of the success path of
`_tcp_connect_and_sync`: `connect` (line 216), send handshake (lines
219-220), `self.connected = True` (line 222), read and consume the
newline-delimited handshake response (lines 226-238), then the sync loop
(lines 241-246). -/
def tcpSuccessPath : List TcpEvent :=
  [TcpEvent.tcp_connect, TcpEvent.send_handshake, TcpEvent.set_connected,
   TcpEvent.recv_handshake_response, TcpEvent.send_sync]

/-- Whether `connected` is `True` after the first `k` statements of the
success path (it enters `False` and the path never clears it). -/
def connectedAfter (k : Nat) : Bool :=
  (tcpSuccessPath.take k).contains TcpEvent.set_connected

/-- Whether the peer's handshake response has been consumed after the
first `k` statements of the success path. -/
def handshakeConsumedAfter (k : Nat) : Bool :=
  (tcpSuccessPath.take k).contains TcpEvent.recv_handshake_response

/-- Whether our handshake has been sent after the first `k` statements of
the success path. -/
def handshakeSentAfter (k : Nat) : Bool :=
  (tcpSuccessPath.take k).contains TcpEvent.send_handshake

/-- C3 counterexample: after the first three statements of the success
path `connected` is already `True`, yet the peer's handshake response has
not been consumed — `connected` becomes true BEFORE the response is read,
contradicting the claimed ordering. -/
theorem connected_before_response_counterexample :
    connectedAfter 3 = true ∧ handshakeConsumedAfter 3 = false := by
  decide

/-- C3 as amended: on the success path the task sends its handshake and
sets `connected = True` immediately after — before reading the peer's
handshake response.  `connected` is never true before the handshake has
been sent, and once the response has been consumed `connected` is already
true. -/
theorem connected_follows_send (k : Nat) :
    (connectedAfter k = true → handshakeSentAfter k = true) ∧
    (handshakeConsumedAfter k = true → connectedAfter k = true) := by
  have hlen : tcpSuccessPath.length = 5 := rfl
  by_cases h5 : k < 5
  · interval_cases k <;> exact ⟨fun h => by revert h; decide, fun h => by revert h; decide⟩
  · have hfull : tcpSuccessPath.take k = tcpSuccessPath :=
      List.take_of_length_le (by omega)
    constructor <;> intro _ <;>
      simp [connectedAfter, handshakeSentAfter, hfull] <;> decide

/-- Witness for the amended C3 at the concrete step index 3. -/
theorem connected_follows_send_witness :
    connectedAfter 3 = true ∧ handshakeSentAfter 3 = true :=
  ⟨by decide, (connected_follows_send 3).1 (by decide)⟩

/-- Embeds `PeerConnection.start` (src/network.py lines 158-180) on the
data model: sets the running flag (socket binding and thread launching
carry no state beyond it). -/
def PeerConnection.start (c : PeerConnection) : PeerConnection :=
  { c with running := true }

/-- Embeds the state of `NetworkManager.__init__` (src/network.py lines
335-351): port-allocation bases and offset, and the insertion-ordered
registry of peers keyed by name (Python dicts preserve insertion order).
The lock, listener and callbacks carry no data and are omitted. -/
structure NetworkManager where
  username : String
  base_tcp_port : Nat := 50000
  base_udp_port : Nat := 51000
  next_port_offset : Nat := 0
  peers : List (String × PeerConnection) := []
deriving DecidableEq, Repr

/-- Embeds `NetworkManager.connect_to_peer` (src/network.py lines
377-402): returns unchanged when the name is already registered;
otherwise allocates the next local port pair, bumps the offset, derives
the remote ports from `peer_port` (fallback 50000/51000 when
non-positive), registers the new connection and starts it. -/
def NetworkManager.connect_to_peer (m : NetworkManager)
    (peer_name peer_address : String) (peer_port : Int) : NetworkManager :=
  if peer_name ∈ m.peers.map Prod.fst then m
  else
    let tcp_port := m.base_tcp_port + m.next_port_offset
    let udp_port := m.base_udp_port + m.next_port_offset
    let peer : PeerConnection :=
      { peer_name := peer_name
        peer_address := peer_address
        tcp_port := if peer_port > 0 then peer_port else 50000
        udp_port := if peer_port > 0 then peer_port + 1000 else 51000
        local_tcp_port := tcp_port
        local_udp_port := udp_port
        username := m.username }
    { m with next_port_offset := m.next_port_offset + 1,
             peers := m.peers ++ [(peer_name, peer.start)] }

/-- Embeds `NetworkManager.update_mouse_state` (src/network.py lines
412-416): writes the given telemetry into every registered peer's
outbound snapshot. -/
def NetworkManager.update_mouse_state (m : NetworkManager) (x y : Nat)
    (wheel_x wheel_y : Int) (buttons : Nat) : NetworkManager :=
  { m with peers := m.peers.map (fun p =>
      (p.1, p.2.update_mouse_state x y wheel_x wheel_y buttons)) }

/-- Concrete manager with one registered peer, used by the witnesses. -/
def oneManager : NetworkManager :=
  NetworkManager.connect_to_peer ({ username := "alice" } : NetworkManager) "B" "10.0.0.5" 51000

/-- C6: when `peer_name` is already registered, a second `connect_to_peer`
call with that name returns without effect — the whole manager state,
hence registry contents, registry size and the next-port-offset counter,
is unchanged. -/
theorem connect_to_peer_idempotent (m : NetworkManager)
    (peer_name peer_address : String) (peer_port : Int)
    (h : peer_name ∈ m.peers.map Prod.fst) :
    m.connect_to_peer peer_name peer_address peer_port = m ∧
    (m.connect_to_peer peer_name peer_address peer_port).peers = m.peers ∧
    (m.connect_to_peer peer_name peer_address peer_port).peers.length
      = m.peers.length ∧
    (m.connect_to_peer peer_name peer_address peer_port).next_port_offset
      = m.next_port_offset := by
  have he : m.connect_to_peer peer_name peer_address peer_port = m := by
    simp [NetworkManager.connect_to_peer, h]
  exact ⟨he, by rw [he], by rw [he], by rw [he]⟩

/-- Witness for C6: a second registration of peer "B" leaves the
one-peer manager untouched. -/
theorem connect_to_peer_idempotent_witness :
    oneManager.connect_to_peer "B" "10.0.0.99" 4242 = oneManager ∧
    (oneManager.connect_to_peer "B" "10.0.0.99" 4242).peers = oneManager.peers ∧
    (oneManager.connect_to_peer "B" "10.0.0.99" 4242).peers.length
      = oneManager.peers.length ∧
    (oneManager.connect_to_peer "B" "10.0.0.99" 4242).next_port_offset
      = oneManager.next_port_offset :=
  connect_to_peer_idempotent oneManager "B" "10.0.0.99" 4242 (by decide)

/-- C8: registering a fresh peer derives remote TCP = `peer_port` and
remote UDP = `peer_port + 1000` when `peer_port` is positive, falling back
to 50000/51000 when it is non-positive; in particular an announced port of
51000 yields remote TCP = 51000 and remote UDP = 52000. -/
theorem remote_port_derivation (m : NetworkManager)
    (peer_name peer_address : String) (peer_port : Int)
    (h : peer_name ∉ m.peers.map Prod.fst) :
    ∃ peer : PeerConnection,
      (m.connect_to_peer peer_name peer_address peer_port).peers
        = m.peers ++ [(peer_name, peer)] ∧
      peer.tcp_port = (if peer_port > 0 then peer_port else 50000) ∧
      peer.udp_port = (if peer_port > 0 then peer_port + 1000 else 51000) ∧
      (peer_port = 51000 → peer.tcp_port = 51000 ∧ peer.udp_port = 52000) := by
  rw [NetworkManager.connect_to_peer, if_neg h]
  refine ⟨_, rfl, rfl, rfl, ?_⟩
  rintro rfl
  exact ⟨rfl, rfl⟩

/-- Witness for C8: the scenario input — peer "B" at announced port
51000 on a fresh manager. -/
theorem remote_port_derivation_witness :
    ∃ peer : PeerConnection,
      (NetworkManager.connect_to_peer ({ username := "alice" } : NetworkManager)
        "B" "10.0.0.5" 51000).peers = ({ username := "alice" } : NetworkManager).peers
          ++ [("B", peer)] ∧
      peer.tcp_port = (if (51000 : Int) > 0 then 51000 else 50000) ∧
      peer.udp_port = (if (51000 : Int) > 0 then 51000 + 1000 else 51000) ∧
      ((51000 : Int) = 51000 → peer.tcp_port = 51000 ∧ peer.udp_port = 52000) :=
  remote_port_derivation ({ username := "alice" } : NetworkManager) "B" "10.0.0.5" 51000
    (by decide)

/-- Clamp ranges of the telemetry snapshot as the spec states them:
position components in [0,65535], wheel deltas in [-128,127], button
bitmask in [0,255]. -/
def snapshotInRange (c : PeerConnection) : Prop :=
  c.mouse_x ≤ 65535 ∧ c.mouse_y ≤ 65535 ∧
  -128 ≤ c.mouse_wheel_x ∧ c.mouse_wheel_x ≤ 127 ∧
  -128 ≤ c.mouse_wheel_y ∧ c.mouse_wheel_y ≤ 127 ∧
  c.mouse_buttons ≤ 255

instance (c : PeerConnection) : Decidable (snapshotInRange c) := by
  unfold snapshotInRange; exact inferInstance

/-- C9 counterexample: `update_mouse_state` performs no clamping — called
with x = 70000 it stores 70000 into `mouse_x`, leaving the snapshot
outside the claimed clamp ranges. -/
theorem update_mouse_state_no_clamp_counterexample :
    (sampleConn.update_mouse_state 70000 0 0 0 0).mouse_x = 70000 ∧
    ¬ snapshotInRange (sampleConn.update_mouse_state 70000 0 0 0 0) := by
  constructor
  · rfl
  · intro h
    exact absurd h.1 (by decide)

/-- C9 as amended: `update_mouse_state` stores its arguments verbatim
(no clamping happens in the network layer), so the snapshot lies within
the clamp ranges after a call — whether on one `PeerConnection` or fanned
out to every peer by the Manager — exactly when the arguments themselves
are in range; in-range arguments preserve the invariant.  (The actual
clamping lives in the capture layer, src/mouse_capture.py.) -/
theorem update_mouse_state_in_range (c : PeerConnection)
    (m : NetworkManager) (x y : Nat) (wx wy : Int) (btn : Nat)
    (hx : x ≤ 65535) (hy : y ≤ 65535)
    (hwx1 : -128 ≤ wx) (hwx2 : wx ≤ 127)
    (hwy1 : -128 ≤ wy) (hwy2 : wy ≤ 127) (hb : btn ≤ 255) :
    snapshotInRange (c.update_mouse_state x y wx wy btn) ∧
    ∀ p ∈ (m.update_mouse_state x y wx wy btn).peers, snapshotInRange p.2 := by
  constructor
  · exact ⟨hx, hy, hwx1, hwx2, hwy1, hwy2, hb⟩
  · intro p hp
    simp only [NetworkManager.update_mouse_state, List.mem_map] at hp
    obtain ⟨q, _, rfl⟩ := hp
    exact ⟨hx, hy, hwx1, hwx2, hwy1, hwy2, hb⟩

/-- Witness for the amended C9 at the spec's concrete test vector
(x=100, y=200, wheel=(1,-1), buttons=1) on a one-peer manager. -/
theorem update_mouse_state_in_range_witness :
    snapshotInRange (sampleConn.update_mouse_state 100 200 1 (-1) 1) ∧
    ∀ p ∈ (oneManager.update_mouse_state 100 200 1 (-1) 1).peers,
      snapshotInRange p.2 :=
  update_mouse_state_in_range sampleConn oneManager 100 200 1 (-1) 1
    (by decide) (by decide) (by decide) (by decide) (by decide)
    (by decide) (by decide)

/-- Embeds the timeout test of one poll of `PeerConnection._check_liveness`
(src/network.py lines 319-325): `rx` is the `last_rx_time` read at the
poll and `now` the current time; `time_since_rx` is `now - rx` when
`rx > 0` and 999 otherwise; the disconnect callback fires iff `rx > 0`
and `time_since_rx > 2.0`. -/
def livenessFires (now rx : ℚ) : Bool :=
  let time_since_rx := if 0 < rx then now - rx else 999
  decide (0 < rx) && decide (2 < time_since_rx)

/-- Embeds `PeerConnection._check_liveness`'s polling loop over a finite
schedule of polls, each supplying the wall-clock time and the
`last_rx_time` value it reads; returns how many times the disconnect
callback is invoked.  The loop `break`s right after invoking the
callback, so later polls are never examined. -/
def livenessRun : List (ℚ × ℚ) → Nat
  | [] => 0
  | (now, rx) :: rest => if livenessFires now rx then 1 else livenessRun rest

/-- C5: over any schedule of liveness polls, the disconnect callback never
fires while `last_rx_time` is still zero (no datagram ever received); it
fires at most once in total (one-shot — the task stops monitoring after
firing); and if some poll observes a positive `last_rx_time` with more
than 2.0 seconds elapsed since it, the callback fires exactly once. -/
theorem liveness_one_shot (polls : List (ℚ × ℚ)) :
    ((∀ p ∈ polls, p.2 = 0) → livenessRun polls = 0) ∧
    livenessRun polls ≤ 1 ∧
    ((∃ p ∈ polls, 0 < p.2 ∧ 2 < p.1 - p.2) → livenessRun polls = 1) := by
  induction polls with
  | nil => exact ⟨fun _ => rfl, by simp [livenessRun], by simp⟩
  | cons hd tl ih =>
    obtain ⟨now, rx⟩ := hd
    refine ⟨?_, ?_, ?_⟩
    · intro hall
      have hrx : rx = 0 := hall (now, rx) (by simp)
      have hf : livenessFires now rx = false := by
        simp [livenessFires, hrx]
      simp only [livenessRun, hf, if_false]
      exact ih.1 (fun p hp => hall p (List.mem_cons_of_mem _ hp))
    · by_cases hf : livenessFires now rx <;> simp only [livenessRun, hf, if_true, if_false]
      · exact le_refl 1
      · exact ih.2.1
    · rintro ⟨p, hp, hp1, hp2⟩
      rcases List.mem_cons.mp hp with rfl | hmem
      · simp only at hp1 hp2
        have hf : livenessFires now rx = true := by
          simp only [livenessFires, if_pos hp1, Bool.and_eq_true, decide_eq_true_eq]
          exact ⟨hp1, hp2⟩
        simp [livenessRun, hf]
      · by_cases hf : livenessFires now rx
        · simp [livenessRun, hf]
        · simp only [livenessRun, hf, if_false]
          exact ih.2.2 ⟨p, hmem, hp1, hp2⟩

/-- Witness for C5: a first poll during the startup lull (nothing received
yet) does not fire; a later poll that sees 9 seconds of silence after a
receive at time 1 fires the callback exactly once. -/
theorem liveness_one_shot_witness :
    livenessRun [((1 : ℚ), (0 : ℚ)), ((10 : ℚ), (1 : ℚ))] = 1 :=
  (liveness_one_shot [((1 : ℚ), (0 : ℚ)), ((10 : ℚ), (1 : ℚ))]).2.2
    ⟨((10 : ℚ), (1 : ℚ)), by simp, by norm_num, by norm_num⟩

/-- Embeds the fresh state constructed by `NetworkManager.__init__`
(src/network.py lines 335-351): bases 50000/51000, offset 0, empty
registry. -/
def initNetworkManager (username : String) : NetworkManager :=
  { username := username }

/-- Folds `connect_to_peer` over a list of discovery requests
(peer name, address, announced port), in order. -/
def connectAll (m : NetworkManager) : List (String × String × Int) → NetworkManager
  | [] => m
  | r :: rest => connectAll (m.connect_to_peer r.1 r.2.1 r.2.2) rest

lemma connect_to_peer_fresh (m : NetworkManager) (n a : String) (p : Int)
    (h : n ∉ m.peers.map Prod.fst) :
    ∃ e : PeerConnection,
      (m.connect_to_peer n a p).peers = m.peers ++ [(n, e)] ∧
      e.local_tcp_port = m.base_tcp_port + m.next_port_offset ∧
      e.local_udp_port = m.base_udp_port + m.next_port_offset ∧
      (m.connect_to_peer n a p).next_port_offset = m.next_port_offset + 1 ∧
      (m.connect_to_peer n a p).base_tcp_port = m.base_tcp_port ∧
      (m.connect_to_peer n a p).base_udp_port = m.base_udp_port := by
  unfold NetworkManager.connect_to_peer
  rw [if_neg h]
  exact ⟨_, rfl, rfl, rfl, rfl, rfl, rfl⟩

lemma connectAll_spec (reqs : List (String × String × Int)) :
    ∀ m : NetworkManager,
      m.next_port_offset = m.peers.length →
      (∀ r ∈ reqs, r.1 ∉ m.peers.map Prod.fst) →
      (reqs.map (fun r => r.1)).Nodup →
      (connectAll m reqs).peers.length = m.peers.length + reqs.length ∧
      (∀ j, j < m.peers.length →
        (connectAll m reqs).peers[j]? = m.peers[j]?) ∧
      (∀ j, m.peers.length ≤ j → j < m.peers.length + reqs.length →
        ∃ nm : String, ∃ pc : PeerConnection,
          (connectAll m reqs).peers[j]? = some (nm, pc) ∧
          pc.local_tcp_port = m.base_tcp_port + j ∧
          pc.local_udp_port = m.base_udp_port + j) := by
  induction reqs with
  | nil =>
    intro m hoff hfresh hnd
    exact ⟨by simp [connectAll], fun j hj => rfl,
      fun j hj1 hj2 => absurd hj2 (by simpa using hj1)⟩
  | cons r rest ih =>
    intro m hoff hfresh hnd
    obtain ⟨e, hpe, htcp, hudp, hoff2, hbt, hbu⟩ :=
      connect_to_peer_fresh m r.1 r.2.1 r.2.2 (hfresh r (List.mem_cons_self r rest))
    have hca : connectAll m (r :: rest)
        = connectAll (m.connect_to_peer r.1 r.2.1 r.2.2) rest := rfl
    have hlen1 : (m.connect_to_peer r.1 r.2.1 r.2.2).peers.length
        = m.peers.length + 1 := by
      rw [hpe]; simp
    have hnd' := hnd
    rw [List.map_cons, List.nodup_cons] at hnd'
    have hfresh' : ∀ s ∈ rest,
        s.1 ∉ (m.connect_to_peer r.1 r.2.1 r.2.2).peers.map Prod.fst := by
      intro s hs hmem
      rw [hpe, List.map_append, List.mem_append] at hmem
      rcases hmem with hmem | hmem
      · exact hfresh s (List.mem_cons_of_mem _ hs) hmem
      · simp only [List.map_cons, List.map_nil, List.mem_singleton] at hmem
        exact hnd'.1 (hmem ▸ List.mem_map_of_mem (fun x => x.1) hs)
    obtain ⟨ihlen, ihpre, ihports⟩ := ih (m.connect_to_peer r.1 r.2.1 r.2.2)
      (by rw [hoff2, hoff, hlen1]) hfresh' hnd'.2
    refine ⟨?_, ?_, ?_⟩
    · rw [hca, ihlen, hlen1]
      simp only [List.length_cons]
      omega
    · intro j hj
      rw [hca, ihpre j (by rw [hlen1]; omega), hpe,
        List.getElem?_append_left hj]
    · intro j hj1 hj2
      by_cases hcase : j < m.peers.length + 1
      · have hje : j = m.peers.length := by omega
        subst hje
        refine ⟨r.1, e, ?_, by rw [htcp, hoff], by rw [hudp, hoff]⟩
        rw [hca, ihpre _ (by rw [hlen1]; omega), hpe]
        exact List.getElem?_concat_length _ _
      · obtain ⟨nm, pc, hsome, h1, h2⟩ := ihports j (by rw [hlen1]; omega)
          (by rw [hlen1]; simp only [List.length_cons] at hj2; omega)
        exact ⟨nm, pc, by rw [hca]; exact hsome,
          by rw [h1, hbt], by rw [h2, hbu]⟩

/-- C7: starting from a fresh manager, N sequential `connect_to_peer`
calls with N pairwise-distinct peer names register exactly N peers, the
k-th (k starting at 0) getting local TCP port 50000 + k and local UDP
port 51000 + k; consequently all local TCP ports are pairwise distinct
and all local UDP ports are pairwise distinct. -/
theorem local_ports_strictly_increasing (username : String)
    (reqs : List (String × String × Int))
    (hnd : (reqs.map (fun r => r.1)).Nodup) :
    (connectAll (initNetworkManager username) reqs).peers.length
      = reqs.length ∧
    (∀ k, k < reqs.length →
      ∃ nm : String, ∃ pc : PeerConnection,
        (connectAll (initNetworkManager username) reqs).peers[k]?
          = some (nm, pc) ∧
        pc.local_tcp_port = 50000 + k ∧ pc.local_udp_port = 51000 + k) ∧
    (∀ j k, j < reqs.length → k < reqs.length → j ≠ k →
      ∀ nmj nmk : String, ∀ pcj pck : PeerConnection,
        (connectAll (initNetworkManager username) reqs).peers[j]?
          = some (nmj, pcj) →
        (connectAll (initNetworkManager username) reqs).peers[k]?
          = some (nmk, pck) →
        pcj.local_tcp_port ≠ pck.local_tcp_port ∧
        pcj.local_udp_port ≠ pck.local_udp_port) := by
  obtain ⟨hlen, hpre, hports⟩ := connectAll_spec reqs (initNetworkManager username)
    rfl (fun r hr => by simp [initNetworkManager]) hnd
  have hports0 : ∀ k, k < reqs.length →
      ∃ nm : String, ∃ pc : PeerConnection,
        (connectAll (initNetworkManager username) reqs).peers[k]?
          = some (nm, pc) ∧
        pc.local_tcp_port = 50000 + k ∧ pc.local_udp_port = 51000 + k := by
    intro k hk
    obtain ⟨nm, pc, h1, h2, h3⟩ := hports k (by simp [initNetworkManager])
      (by simpa [initNetworkManager] using hk)
    exact ⟨nm, pc, h1, by simpa [initNetworkManager] using h2,
      by simpa [initNetworkManager] using h3⟩
  refine ⟨by simpa [initNetworkManager] using hlen, hports0, ?_⟩
  intro j k hj hk hne nmj nmk pcj pck hsj hsk
  obtain ⟨nm1, pc1, h1, h2, h3⟩ := hports0 j hj
  obtain ⟨nm2, pc2, g1, g2, g3⟩ := hports0 k hk
  rw [h1] at hsj
  rw [g1] at hsk
  simp only [Option.some.injEq, Prod.mk.injEq] at hsj hsk
  obtain ⟨-, rfl⟩ := hsj
  obtain ⟨-, rfl⟩ := hsk
  exact ⟨by omega, by omega⟩

/-- Witness for C7: two distinct peers get local TCP ports 50000 and
50001 and local UDP ports 51000 and 51001. -/
theorem local_ports_strictly_increasing_witness :
    (connectAll (initNetworkManager "alice")
      [("B", "10.0.0.5", 51000), ("C", "10.0.0.6", 51000)]).peers.length = 2 :=
  (local_ports_strictly_increasing "alice"
    [("B", "10.0.0.5", 51000), ("C", "10.0.0.6", 51000)] (by decide)).1
